import Mathlib

/-!
Shallow embedding of `src/app.py` and `src/cli_ingestion.py` of the
populate_analytics_service repository, together with theorems settling the
frozen claims about the enrichment / accumulation / dispatch pipeline.

Modelling conventions:
* Records are values of an arbitrary type `R` with decidable equality.
  Python compares dicts by `==`; in `retry_failed_records` the dict object
  removed by `failed_records.remove(record)` is the very object held in the
  queue (the snapshot is a shallow copy), so with pairwise distinct record
  values the removal coincides with value-level `List.erase` of the record.
* The remote enrichment endpoint is an oracle `A : Nat -> Option R` giving
  the outcome of attempt `i`: `some r` is a 2xx response whose JSON body has
  been merged into the record (yielding `r`), and `none` is an HTTP error
  status or a transport timeout, which `enrich_record` handles identically.
* The analytics endpoint outcome of a single dispatch is a `DispatchOutcome`.
* Wall-clock time for the rate limiter is modelled with `Rat`.
-/

namespace App

/-- The three module-level queues of `app.py` (lines 14-16):
`enriched_records` (the Accumulation Queue), `non_enriched_records`
(the side list of raw records whose enrichment failed), and
`failed_records` (the Failure Queue). -/
structure PipelineState (R : Type) where
  enriched_records : List R
  non_enriched_records : List R
  failed_records : List R

/-- The `while retries < max_retries` loop of `enrich_record`
(app.py lines 36-58), abstracted over the per-attempt outcome oracle `A`.
`start` is the index of the next attempt, `fuel` the number of attempts
still allowed.  Returns the enrichment result together with the number of
HTTP calls issued and the number of `time.sleep(retry_wait)` executions
(the code sleeps once after every failed attempt; a successful attempt
returns before reaching the sleep). -/
def enrichLoop {R : Type} (A : Nat → Option R) (start fuel : Nat) :
    Option R × Nat × Nat :=
  match fuel with
  | 0 => (none, 0, 0)
  | f + 1 =>
    match A start with
    | some r => (some r, 1, 0)
    | none =>
      let rest := enrichLoop A (start + 1) f
      (rest.1, rest.2.1 + 1, rest.2.2 + 1)

/-- `enrich_record` (app.py lines 28-63): run the retry loop; on success
return the merged record with status 200 and leave the queues untouched; on
exhaustion append the record to `failed_records` and return status 500. -/
def enrich_record {R : Type} (A : Nat → Option R) (record : R)
    (max_retries : Nat) (st : PipelineState R) :
    Option R × Nat × PipelineState R :=
  match enrichLoop A 0 max_retries with
  | (some r, _, _) => (some r, 200, st)
  | (none, _, _) =>
    (none, 500,
      ⟨st.enriched_records, st.non_enriched_records,
        st.failed_records ++ [record]⟩)

/-- Default `max_retries` of `enrich_record` (app.py line 28). -/
def max_retries_default : Nat := 3

/-- Default `retry_wait` of `enrich_record`, in seconds (app.py line 28). -/
def retry_wait_default : Rat := 1 / 2

lemma enrichLoop_calls_le {R : Type} (A : Nat → Option R) :
    ∀ (fuel s : Nat), (enrichLoop A s fuel).2.1 ≤ fuel := by
  intro fuel
  induction fuel with
  | zero => intro s; simp [enrichLoop]
  | succ f ih =>
    intro s
    cases hA : A s with
    | some r => simp [enrichLoop, hA]
    | none =>
      have := ih (s + 1)
      simp only [enrichLoop, hA]
      omega

lemma enrichLoop_first_success {R : Type} (A : Nat → Option R) (r : R) :
    ∀ (k s fuel : Nat), k < fuel → (∀ j, j < k → A (s + j) = none) →
      A (s + k) = some r → enrichLoop A s fuel = (some r, k + 1, k) := by
  intro k
  induction k with
  | zero =>
    intro s fuel hk hprev hs
    obtain ⟨f, rfl⟩ : ∃ f, fuel = f + 1 := ⟨fuel - 1, by omega⟩
    simp only [Nat.add_zero] at hs
    simp [enrichLoop, hs]
  | succ k ih =>
    intro s fuel hk hprev hs
    obtain ⟨f, rfl⟩ : ∃ f, fuel = f + 1 := ⟨fuel - 1, by omega⟩
    have h0 : A s = none := by
      have := hprev 0 (by omega)
      simpa using this
    have hs' : A (s + 1 + k) = some r := by
      have e : s + 1 + k = s + (k + 1) := by omega
      rw [e]; exact hs
    have hprev' : ∀ j, j < k → A (s + 1 + j) = none := by
      intro j hj
      have e : s + 1 + j = s + (j + 1) := by omega
      rw [e]; exact hprev (j + 1) (by omega)
    have hrec := ih (s + 1) f (by omega) hprev' hs'
    simp [enrichLoop, h0, hrec]

lemma enrichLoop_all_fail {R : Type} (A : Nat → Option R) :
    ∀ (fuel s : Nat), (∀ j, j < fuel → A (s + j) = none) →
      enrichLoop A s fuel = (none, fuel, fuel) := by
  intro fuel
  induction fuel with
  | zero => intro s _; rfl
  | succ f ih =>
    intro s h
    have h0 : A s = none := by simpa using h 0 (by omega)
    have hrec := ih (s + 1) (fun j hj => by
      have e : s + 1 + j = s + (j + 1) := by omega
      rw [e]; exact h (j + 1) (by omega))
    simp [enrichLoop, h0, hrec]

/-- Outcome of a single call to the analytics endpoint, matching the three
branches of `send_to_analytics_service` (app.py lines 78-90): a 2xx
response, `requests.exceptions.HTTPError`, or `requests.exceptions.Timeout`. -/
inductive DispatchOutcome where
  | ok
  | httpError
  | transportTimeout
deriving DecidableEq

/-- Status code returned by `send_to_analytics_service` for each outcome
(app.py lines 84, 87, 90). -/
def dispatchStatus : DispatchOutcome → Nat
  | DispatchOutcome.ok => 200
  | DispatchOutcome.httpError => 500
  | DispatchOutcome.transportTimeout => 408

/-- `RATE_LIMIT_INTERVAL` (app.py line 25), in seconds. -/
def RATE_LIMIT_INTERVAL : Rat := 10

/-- Environment of a single call to `send_to_analytics_service`:
`startTime` is the value of `time.time()` on entry, `callDuration` the
elapsed time between starting the HTTP request and reading `time.time()`
after it returned, `outcome` the endpoint behaviour. -/
structure SendEnv where
  startTime : Rat
  callDuration : Rat
  outcome : DispatchOutcome

/-- `send_to_analytics_service` (app.py lines 66-90), with the global
`LAST_SENT_MESSAGE_TIME` passed in and returned explicitly.  The code
computes `time_since_last` and sleeps the remaining interval, so the
request starts at `lastSent + RATE_LIMIT_INTERVAL` when the elapsed time is
short and at `startTime` otherwise; on a 2xx response the timestamp is set
to `time.time()` taken after the call, on either failure the timestamp is
left unchanged. -/
def send_to_analytics_service (env : SendEnv) (lastSent : Rat) :
    Option Unit × Nat × Rat :=
  let timeSince := env.startTime - lastSent
  let sendStart :=
    if timeSince < RATE_LIMIT_INTERVAL then lastSent + RATE_LIMIT_INTERVAL
    else env.startTime
  match env.outcome with
  | DispatchOutcome.ok => (some (), 200, sendStart + env.callDuration)
  | DispatchOutcome.httpError => (none, 500, lastSent)
  | DispatchOutcome.transportTimeout => (none, 408, lastSent)

section Pipeline

variable {R : Type} [DecidableEq R]

/-- One iteration of the `for record in records_to_retry` loop of
`retry_failed_records` (app.py lines 102-108): call `enrich_record` with its
default `max_retries = 3` (the call on line 103 passes no overrides), where
`E record` is the attempt oracle for this record in this pass; if the status
is 200, remove the record from the live `failed_records` and append the
enriched result to `enriched_records`.  The removal is `List.erase` of the
record's value: `failed_records.remove(record)` removes the first list
element comparing equal to the snapshot object, which is the queue object
itself. -/
def retryStep (E : R → Nat → Option R) (st : PipelineState R) (record : R) :
    PipelineState R :=
  let res := enrich_record (E record) record 3 st
  if res.2.1 = 200 then
    ⟨res.2.2.enriched_records ++ [res.1.getD record],
      res.2.2.non_enriched_records,
      res.2.2.failed_records.erase record⟩
  else
    res.2.2

/-- `retry_failed_records` (app.py lines 93-108): no-op when the Failure
Queue is empty, otherwise iterate `retryStep` over a snapshot
(`records_to_retry = failed_records.copy()`) of the queue while the live
queue evolves. -/
def retry_failed_records (E : R → Nat → Option R) (st : PipelineState R) :
    PipelineState R :=
  if st.failed_records.isEmpty then st
  else st.failed_records.foldl (retryStep E) st

/-- The enrichment phase of `process_record` (app.py lines 115-119): call
`enrich_record` (default `max_retries = 3`); on status 200 append the
enriched record to `enriched_records`, otherwise append the raw record to
`non_enriched_records`. -/
def afterEnrichPhase (A : Nat → Option R) (record : R)
    (st : PipelineState R) : PipelineState R :=
  let res := enrich_record A record 3 st
  if res.2.1 = 200 then
    ⟨res.2.2.enriched_records ++ [res.1.getD record],
      res.2.2.non_enriched_records, res.2.2.failed_records⟩
  else
    ⟨res.2.2.enriched_records, res.2.2.non_enriched_records ++ [record],
      res.2.2.failed_records⟩

/-- Result of one `process_record` call: the new global state, the HTTP
status of the Flask response, and the batch passed to
`send_to_analytics_service` when a dispatch was issued. -/
structure StepResult (R : Type) where
  newState : PipelineState R
  statusCode : Nat
  dispatched : Option (List R)

/-- The `/process_record` handler (app.py lines 111-142).  After the
enrichment phase, if `len(enriched_records) >= 20` the first 20 records are
sent to the analytics service and `enriched_records.clear()` empties the
whole Accumulation Queue; on dispatch status 200 the Failure Queue is
retried and the handler returns 200, on any other dispatch status it
returns 500; with fewer than 20 queued records it returns 200 without
dispatching. -/
def process_record (A : Nat → Option R) (dOut : DispatchOutcome)
    (E : R → Nat → Option R) (record : R) (st : PipelineState R) :
    StepResult R :=
  let st2 := afterEnrichPhase A record st
  if 20 ≤ st2.enriched_records.length then
    let batch := st2.enriched_records.take 20
    let st3 : PipelineState R :=
      ⟨[], st2.non_enriched_records, st2.failed_records⟩
    if dispatchStatus dOut = 200 then
      ⟨retry_failed_records E st3, 200, some batch⟩
    else
      ⟨st3, 500, some batch⟩
  else
    ⟨st2, 200, none⟩

/-- One external call to the ingestion entry point: the record submitted,
its enrichment attempt oracle, the analytics outcome should a dispatch be
triggered, and the attempt oracles used by the requeue pass. -/
structure Submission (R : Type) where
  record : R
  attempts : Nat → Option R
  dOut : DispatchOutcome
  retryE : R → Nat → Option R

/-- Run a sequence of `process_record` calls from a starting state. -/
def runSubs (subs : List (Submission R)) (st : PipelineState R) :
    PipelineState R :=
  subs.foldl
    (fun s sub =>
      (process_record sub.attempts sub.dOut sub.retryE sub.record s).newState)
    st

/-- Whether the pass-local enrichment of `r` (3 attempts against its oracle
`E r`) succeeds. -/
def succeedsE (E : R → Nat → Option R) (r : R) : Bool :=
  ((enrichLoop (E r) 0 3).1).isSome

/-- The enriched value produced for `r` by its pass-local enrichment
(meaningful when `succeedsE` holds). -/
def enrVal (E : R → Nat → Option R) (r : R) : R :=
  ((enrichLoop (E r) 0 3).1).getD r

lemma retryStep_eq (E : R → Nat → Option R) (st : PipelineState R)
    (record : R) :
    retryStep E st record =
      match (enrichLoop (E record) 0 3).1 with
      | some r' =>
          ⟨st.enriched_records ++ [r'], st.non_enriched_records,
            st.failed_records.erase record⟩
      | none =>
          ⟨st.enriched_records, st.non_enriched_records,
            st.failed_records ++ [record]⟩ := by
  unfold retryStep enrich_record
  rcases ht : enrichLoop (E record) 0 3 with ⟨o, c, sl⟩
  cases o <;> simp

lemma foldl_retryStep_enriched (E : R → Nat → Option R) :
    ∀ (l : List R) (st : PipelineState R),
      (l.foldl (retryStep E) st).enriched_records =
        st.enriched_records ++ (l.filter (succeedsE E)).map (enrVal E) := by
  intro l
  induction l with
  | nil => intro st; simp
  | cons x l ih =>
    intro st
    rw [List.foldl_cons, ih, retryStep_eq]
    cases hx : (enrichLoop (E x) 0 3).1 with
    | some r' =>
      have hs : succeedsE E x = true := by simp [succeedsE, hx]
      have hv : enrVal E x = r' := by simp [enrVal, hx]
      simp [hx, hs, hv, List.filter_cons]
    | none =>
      have hs : succeedsE E x = false := by simp [succeedsE, hx]
      simp [hx, hs, List.filter_cons]

lemma foldl_retryStep_non_enriched (E : R → Nat → Option R) :
    ∀ (l : List R) (st : PipelineState R),
      (l.foldl (retryStep E) st).non_enriched_records =
        st.non_enriched_records := by
  intro l
  induction l with
  | nil => intro st; rfl
  | cons x l ih =>
    intro st
    rw [List.foldl_cons, ih, retryStep_eq]
    cases hx : (enrichLoop (E x) 0 3).1 <;> simp [hx]

lemma foldl_retryStep_failed (E : R → Nat → Option R) :
    ∀ (l K D est nest : List R), (K ++ l).Nodup →
      (List.foldl (retryStep E) ⟨est, nest, K ++ l ++ D⟩ l).failed_records =
        (K ++ l.filter (fun r => ! succeedsE E r)) ++
          (D ++ l.filter (fun r => ! succeedsE E r)) := by
  intro l
  induction l with
  | nil => intro K D est nest _; simp
  | cons x l ih =>
    intro K D est nest h
    rw [List.foldl_cons, retryStep_eq]
    cases hx : (enrichLoop (E x) 0 3).1 with
    | some r' =>
      have hs : succeedsE E x = true := by simp [succeedsE, hx]
      have hxK : x ∉ K := by
        rw [List.nodup_append] at h
        exact fun hmem => h.2.2 hmem (List.mem_cons_self x l)
      have herase :
          ((K ++ (x :: l) ++ D) : List R).erase x = K ++ l ++ D := by
        rw [List.append_assoc, List.erase_append_right _ hxK,
          List.cons_append, List.erase_cons_head, List.append_assoc]
      have hnd : (K ++ l).Nodup := by
        rw [List.nodup_append] at h ⊢
        exact ⟨h.1, h.2.1.of_cons,
          fun a ha hb => h.2.2 ha (List.mem_cons_of_mem x hb)⟩
      have := ih K D (est ++ [r']) nest hnd
      simp only [hx, herase]
      rw [this]
      simp [List.filter_cons, hs]
    | none =>
      have hs : succeedsE E x = false := by simp [succeedsE, hx]
      have hshape :
          ((K ++ (x :: l) ++ D) : List R) ++ [x] =
            (K ++ [x]) ++ l ++ (D ++ [x]) := by
        simp [List.append_assoc]
      have hnd : ((K ++ [x]) ++ l).Nodup := by
        have e : (K ++ [x]) ++ l = K ++ (x :: l) := by
          simp [List.append_assoc]
        rw [e]; exact h
      have := ih (K ++ [x]) (D ++ [x]) est nest hnd
      simp only [hx, hshape]
      rw [this]
      simp [List.filter_cons, hs, List.append_assoc]

lemma retry_failed_enriched (E : R → Nat → Option R)
    (st : PipelineState R) :
    (retry_failed_records E st).enriched_records =
      st.enriched_records ++
        ((st.failed_records.filter (succeedsE E)).map (enrVal E)) := by
  unfold retry_failed_records
  by_cases hf : st.failed_records.isEmpty
  · rw [List.isEmpty_iff] at hf
    simp [hf]
  · rw [if_neg hf]
    exact foldl_retryStep_enriched E st.failed_records st

lemma retry_failed_non_enriched (E : R → Nat → Option R)
    (st : PipelineState R) :
    (retry_failed_records E st).non_enriched_records =
      st.non_enriched_records := by
  unfold retry_failed_records
  by_cases hf : st.failed_records.isEmpty
  · simp [hf]
  · rw [if_neg hf]
    exact foldl_retryStep_non_enriched E st.failed_records st

lemma retry_failed_failed (E : R → Nat → Option R) (st : PipelineState R)
    (h : st.failed_records.Nodup) :
    (retry_failed_records E st).failed_records =
      st.failed_records.filter (fun r => ! succeedsE E r) ++
        st.failed_records.filter (fun r => ! succeedsE E r) := by
  obtain ⟨est, nest, f⟩ := st
  unfold retry_failed_records
  by_cases hf : f.isEmpty
  · rw [List.isEmpty_iff] at hf
    simp_all
  · simp only [hf, Bool.false_eq_true, if_false]
    have := foldl_retryStep_failed E f [] [] est nest (by simpa using h)
    simpa using this

end Pipeline

/-- A submission whose enrichment fails on every attempt (so the record goes
to `failed_records` and `non_enriched_records`). -/
def failSub (n : Nat) : Submission Nat :=
  ⟨n, fun _ => none, DispatchOutcome.ok, fun _ _ => none⟩

/-- A submission whose enrichment succeeds at once (merge leaves the value
unchanged), with a succeeding analytics service and a requeue pass in which
every retried record enriches successfully to itself. -/
def okSub (n : Nat) : Submission Nat :=
  ⟨n, fun _ => some n, DispatchOutcome.ok, fun r _ => some r⟩

/-- Twenty submissions that fail enrichment (filling the Failure Queue with
records 0..19) followed by twenty that succeed (records 100..119).  The
twentieth success triggers a dispatch, after which the requeue pass
re-enriches all twenty failed records, leaving the Accumulation Queue
holding records 0..19 when the call returns. -/
def reachTrace20 : List (Submission Nat) :=
  (List.range 20).map failSub ++ (List.range 20).map (fun i => okSub (100 + i))

/-- As `reachTrace20` but with twenty-one failing submissions, so the final
requeue pass leaves twenty-one records (0..20) in the Accumulation Queue. -/
def reachTrace21 : List (Submission Nat) :=
  (List.range 21).map failSub ++ (List.range 20).map (fun i => okSub (100 + i))

set_option maxRecDepth 40000 in
/-- Claim C1 (code bug): starting from the empty initial state,
`reachTrace21` leaves the Accumulation Queue holding 21 records (0..20).
One more successfully enriched submission (record 999) makes 22, so the
threshold check fires: the code dispatches the first 20 records (0..19),
but `enriched_records.clear()` then empties the whole queue — the claim
(and the code's own comment, "Clear only the sent records") require the
two undispatched records 20 and 999 to remain queued, yet the queue is
empty and the Failure Queue gains nothing. -/
theorem C1_clear_drops_undispatched :
    (runSubs reachTrace21 ⟨[], [], []⟩).enriched_records.length = 21 ∧
    (process_record (fun _ => some 999) DispatchOutcome.ok (fun _ _ => none)
        999 (runSubs reachTrace21 ⟨[], [], []⟩)).dispatched =
      some (List.range 20) ∧
    (process_record (fun _ => some 999) DispatchOutcome.ok (fun _ _ => none)
        999 (runSubs reachTrace21 ⟨[], [], []⟩)).newState.enriched_records
      = [] ∧
    ¬ (process_record (fun _ => some 999) DispatchOutcome.ok (fun _ _ => none)
        999 (runSubs reachTrace21 ⟨[], [], []⟩)).newState.enriched_records
      = [20, 999] ∧
    (process_record (fun _ => some 999) DispatchOutcome.ok (fun _ _ => none)
        999 (runSubs reachTrace21 ⟨[], [], []⟩)).newState.failed_records
      = [] := by
  decide

/-- Claim C2, counterexample: with the Failure Queue holding the single
record 7 whose re-enrichment fails again, a `retry_failed_records` pass
leaves the queue as `[7, 7]` — the failing record does not simply remain:
`enrich_record` re-appends it on exhaustion, so the pass adds a new entry,
contradicting the claim that the queue equals the old queue minus the
successfully re-enriched records. -/
theorem C2_retry_duplicates_failed_record :
    (retry_failed_records (fun _ _ => none)
        (⟨[], [], [7]⟩ : PipelineState Nat)).failed_records = [7, 7] ∧
    ¬ (retry_failed_records (fun _ _ => none)
        (⟨[], [], [7]⟩ : PipelineState Nat)).failed_records = [7] := by
  decide

/-- Claim C2, amended: over a pass of `retry_failed_records` on a queue of
pairwise distinct records, the Failure Queue afterwards consists of the
still-failing records kept in place followed by one freshly appended copy
of each still-failing record (each appears twice); the records whose
re-enrichment succeeded are removed, and their enriched versions are
appended to the Accumulation Queue in snapshot order. -/
theorem C2_amended_retry_pass_effect {R : Type} [DecidableEq R]
    (E : R → Nat → Option R) (st : PipelineState R)
    (h : st.failed_records.Nodup) :
    (retry_failed_records E st).failed_records =
      st.failed_records.filter (fun r => ! succeedsE E r) ++
        st.failed_records.filter (fun r => ! succeedsE E r) ∧
    (retry_failed_records E st).enriched_records =
      st.enriched_records ++
        ((st.failed_records.filter (succeedsE E)).map (enrVal E)) :=
  ⟨retry_failed_failed E st h, retry_failed_enriched E st⟩

/-- Oracle for the C2 witness: record 4 re-enriches to 40, every other
record keeps failing. -/
def C2E : Nat → Nat → Option Nat := fun r _ => if r = 4 then some 40 else none

/-- Witness for the amended C2 at a concrete queue `[3, 4]`: record 3 keeps
failing (and ends up twice in the queue), record 4 succeeds and moves to
the Accumulation Queue as 40. -/
theorem C2_amended_witness :
    (retry_failed_records C2E
        (⟨[], [], [3, 4]⟩ : PipelineState Nat)).failed_records = [3, 3] ∧
    (retry_failed_records C2E
        (⟨[], [], [3, 4]⟩ : PipelineState Nat)).enriched_records = [40] := by
  have h := C2_amended_retry_pass_effect C2E
    (⟨[], [], [3, 4]⟩ : PipelineState Nat) (by decide)
  exact ⟨h.1.trans (by decide), h.2.trans (by decide)⟩

/-- Claim C3, counterexample: with record 7 already in the Failure Queue
(as it is during every requeue pass, since removal only happens after a
success), a further exhausted `enrich_record` call leaves 7 in the queue
twice, not exactly once. -/
theorem C3_exhaustion_leaves_two_copies :
    (enrich_record (fun _ => none) 7 3
        (⟨[], [], [7]⟩ : PipelineState Nat)).2.2.failed_records.count 7 = 2 ∧
    ¬ (enrich_record (fun _ => none) 7 3
        (⟨[], [], [7]⟩ : PipelineState Nat)).2.2.failed_records.count 7
      = 1 := by
  decide

/-- Claim C3, amended: each exhausted `enrich_record` call appends the
record to the Failure Queue exactly once (and a successful call appends
nothing), and a requeue-pass iteration whose re-enrichment fails removes
nothing — records leave the queue only through a successful retry.  The
queue therefore gains one entry per failure; it does not hold the record
exactly once when the record was already queued. -/
theorem C3_amended_failure_queue_bookkeeping {R : Type} [DecidableEq R]
    (A : Nat → Option R) (E : R → Nat → Option R) (record : R)
    (st : PipelineState R) :
    ((enrichLoop A 0 3).1 = none →
      (enrich_record A record 3 st).2.2.failed_records =
        st.failed_records ++ [record]) ∧
    ((enrichLoop A 0 3).1 ≠ none →
      (enrich_record A record 3 st).2.2.failed_records =
        st.failed_records) ∧
    ((enrichLoop (E record) 0 3).1 = none →
      (retryStep E st record).failed_records =
        st.failed_records ++ [record]) := by
  refine ⟨?_, ?_, ?_⟩
  · rcases ht : enrichLoop A 0 3 with ⟨o, c, sl⟩
    intro h
    simp only at h
    subst h
    unfold enrich_record
    rw [ht]
  · rcases ht : enrichLoop A 0 3 with ⟨o, c, sl⟩
    intro h
    simp only [ne_eq] at h
    cases o with
    | some r =>
      unfold enrich_record
      rw [ht]
    | none => simp at h
  · intro h
    rw [retryStep_eq, h]

/-- Witness for the amended C3: a failing enrichment of record 5 on an
empty queue appends it once; a succeeding enrichment appends nothing; a
failing requeue iteration on queue `[5]` removes nothing and appends one
copy. -/
theorem C3_amended_witness :
    (enrich_record (fun _ => none) (5 : Nat) 3
        ⟨[], [], []⟩).2.2.failed_records = [5] ∧
    (enrich_record (fun _ => some 6) (5 : Nat) 3
        ⟨[], [], []⟩).2.2.failed_records = [] ∧
    (retryStep (fun _ _ => none)
        (⟨[], [], [5]⟩ : PipelineState Nat) 5).failed_records = [5, 5] := by
  refine ⟨(C3_amended_failure_queue_bookkeeping (fun _ => none)
      (fun _ _ => none) 5 ⟨[], [], []⟩).1 (by decide),
    (C3_amended_failure_queue_bookkeeping (fun _ => some 6)
      (fun _ _ => none) 5 ⟨[], [], []⟩).2.1 (by decide), ?_⟩
  have h := (C3_amended_failure_queue_bookkeeping (fun _ => (none : Option Nat))
      (fun _ _ => none) (5 : Nat) ⟨[], [], [5]⟩).2.2 (by decide)
  simpa using h

/-- Claim C4: a successful dispatch records a timestamp at least
`RATE_LIMIT_INTERVAL` after the previously recorded one (so two consecutive
successful dispatches are at least the interval apart), and a dispatch that
fails with an HTTP error or a timeout leaves `LAST_SENT_MESSAGE_TIME`
unchanged — the timestamp is updated only by a successful dispatch. -/
theorem C4_rate_limiter_interval (env : SendEnv) (lastSent : Rat)
    (hd : 0 ≤ env.callDuration) :
    (env.outcome = DispatchOutcome.ok →
      lastSent + RATE_LIMIT_INTERVAL ≤
        (send_to_analytics_service env lastSent).2.2) ∧
    (env.outcome ≠ DispatchOutcome.ok →
      (send_to_analytics_service env lastSent).2.2 = lastSent) := by
  obtain ⟨t, d, outc⟩ := env
  simp only at hd
  constructor
  · intro hok
    simp only at hok
    subst hok
    simp only [send_to_analytics_service]
    split_ifs with hlt
    · linarith
    · have : lastSent + RATE_LIMIT_INTERVAL ≤ t := by linarith
      linarith
  · intro hne
    cases outc with
    | ok => exact absurd rfl hne
    | httpError => rfl
    | transportTimeout => rfl

/-- Witness for C4 at concrete times: with the last success recorded at 5
and a new attempt starting at 7 with a call lasting 1 second, a successful
dispatch records a time no earlier than `5 + RATE_LIMIT_INTERVAL`, while an
HTTP-failing dispatch leaves the timestamp at 5. -/
theorem C4_witness :
    (0 : Rat) ≤ 1 ∧
    (5 : Rat) + RATE_LIMIT_INTERVAL ≤
      (send_to_analytics_service ⟨7, 1, DispatchOutcome.ok⟩ 5).2.2 ∧
    (send_to_analytics_service ⟨7, 1, DispatchOutcome.httpError⟩ 5).2.2
      = 5 := by
  refine ⟨by norm_num, ?_, ?_⟩
  · exact (C4_rate_limiter_interval ⟨7, 1, DispatchOutcome.ok⟩ 5
      (by norm_num)).1 rfl
  · exact (C4_rate_limiter_interval ⟨7, 1, DispatchOutcome.httpError⟩ 5
      (by norm_num)).2 (by decide)

/-- Claim C5: the `enrich_record` retry loop issues at most `max_retries`
calls to the enrichment endpoint; if the first successful attempt is
attempt `k` (0-based), the loop stops immediately with that attempt's
merged record, having made `k + 1` calls and slept `k` times (one sleep
between consecutive attempts, none after the success); if every allowed
attempt fails, it makes exactly `max_retries` calls before giving up. -/
theorem C5_enrich_retry_bound {R : Type} (A : Nat → Option R) (m : Nat) :
    (enrichLoop A 0 m).2.1 ≤ m ∧
    (∀ k r, k < m → (∀ j, j < k → A j = none) → A k = some r →
      enrichLoop A 0 m = (some r, k + 1, k)) ∧
    ((∀ j, j < m → A j = none) → enrichLoop A 0 m = (none, m, m)) := by
  refine ⟨enrichLoop_calls_le A m 0, ?_, ?_⟩
  · intro k r hk hprev hs
    exact enrichLoop_first_success A r k 0 m hk
      (fun j hj => by simpa using hprev j hj) (by simpa using hs)
  · intro h
    exact enrichLoop_all_fail A m 0 (fun j hj => by simpa using h j hj)

/-- Attempt oracle for the C5 witness: attempt 0 fails, attempt 1 returns
the enriched record 9. -/
def C5A : Nat → Option Nat := fun n => if n = 1 then some 9 else none

/-- Witness for C5 with the default `max_retries = 3`: under `C5A` the loop
makes two calls and sleeps once, stopping at the first success; under an
always-failing oracle it makes exactly three calls. -/
theorem C5_witness :
    (enrichLoop C5A 0 3).2.1 ≤ 3 ∧
    enrichLoop C5A 0 3 = (some 9, 2, 1) ∧
    enrichLoop (fun _ => (none : Option Nat)) 0 3 = (none, 3, 3) := by
  refine ⟨(C5_enrich_retry_bound C5A 3).1, ?_, ?_⟩
  · exact (C5_enrich_retry_bound C5A 3).2.1 1 9 (by decide) (by decide)
      (by decide)
  · exact (C5_enrich_retry_bound (fun _ => (none : Option Nat)) 3).2.2
      (fun j hj => rfl)

set_option maxRecDepth 20000 in
/-- Claim C6, counterexample: from the empty initial state, the submission
sequence `reachTrace20` leaves 20 records in the Accumulation Queue; the
next submission (record 999) fails all its enrichment attempts — so nothing
is appended to the queue — and yet the orchestrator issues a dispatch,
because the threshold check runs after every submission regardless of
whether the enrichment succeeded. -/
theorem C6_dispatch_after_failed_enrichment :
    (enrichLoop (fun _ => (none : Option Nat)) 0 3).1 = none ∧
    (process_record (fun _ => none) DispatchOutcome.httpError
        (fun _ _ => none) 999
        (runSubs reachTrace20 ⟨[], [], []⟩)).dispatched.isSome = true := by
  decide

/-- Claim C6, amended: `process_record` issues a dispatch if and only if
the Accumulation Queue length is at least 20 immediately after the
submission is processed — whether or not the submission's enrichment
succeeded and appended a record. -/
theorem C6_amended_dispatch_iff_threshold {R : Type} [DecidableEq R]
    (A : Nat → Option R) (dOut : DispatchOutcome) (E : R → Nat → Option R)
    (record : R) (st : PipelineState R) :
    (process_record A dOut E record st).dispatched.isSome = true ↔
      20 ≤ (afterEnrichPhase A record st).enriched_records.length := by
  unfold process_record
  by_cases h : 20 ≤ (afterEnrichPhase A record st).enriched_records.length
  · by_cases hd : dispatchStatus dOut = 200 <;> simp [h, hd]
  · simp [h]

/-- Claim C7: when a triggered dispatch fails (any non-2xx analytics
outcome), the handler reports failure (HTTP 500) and the dispatched records
are returned to no queue: the Accumulation Queue is left empty and the
Failure Queue and non-enriched list are exactly as the enrichment phase
left them. -/
theorem C7_dispatch_failure_drops_batch {R : Type} [DecidableEq R]
    (A : Nat → Option R) (E : R → Nat → Option R) (record : R)
    (st : PipelineState R) (dOut : DispatchOutcome)
    (htrig : 20 ≤ (afterEnrichPhase A record st).enriched_records.length)
    (hfail : dOut ≠ DispatchOutcome.ok) :
    (process_record A dOut E record st).statusCode = 500 ∧
    (process_record A dOut E record st).newState.enriched_records = [] ∧
    (process_record A dOut E record st).newState.failed_records =
      (afterEnrichPhase A record st).failed_records ∧
    (process_record A dOut E record st).newState.non_enriched_records =
      (afterEnrichPhase A record st).non_enriched_records := by
  have hds : ¬ dispatchStatus dOut = 200 := by
    cases dOut with
    | ok => exact absurd rfl hfail
    | httpError => simp [dispatchStatus]
    | transportTimeout => simp [dispatchStatus]
  unfold process_record
  simp [htrig, hds]

/-- Witness for C7: a state holding 20 enriched records, a successfully
enriched twenty-first submission, and an analytics HTTP error — the call
returns 500 and every queue is free of the dispatched batch. -/
theorem C7_witness :
    (process_record (fun _ => some 5) DispatchOutcome.httpError
        (fun _ _ => none) 5
        (⟨List.range 20, [], []⟩ : PipelineState Nat)).statusCode = 500 ∧
    (process_record (fun _ => some 5) DispatchOutcome.httpError
        (fun _ _ => none) 5
        (⟨List.range 20, [], []⟩ : PipelineState Nat)).newState.enriched_records
      = [] ∧
    (process_record (fun _ => some 5) DispatchOutcome.httpError
        (fun _ _ => none) 5
        (⟨List.range 20, [], []⟩ : PipelineState Nat)).newState.failed_records
      = [] ∧
    (process_record (fun _ => some 5) DispatchOutcome.httpError
        (fun _ _ => none) 5
        (⟨List.range 20, [], []⟩ : PipelineState Nat)).newState.non_enriched_records
      = [] := by
  have h := C7_dispatch_failure_drops_batch (fun _ => some 5)
    (fun _ _ => none) 5 (⟨List.range 20, [], []⟩ : PipelineState Nat)
    DispatchOutcome.httpError (by decide) (by decide)
  exact ⟨h.1, h.2.1, h.2.2.1.trans (by decide), h.2.2.2.trans (by decide)⟩

/-- Claim C8: every `process_record` call returns a status (200 or 500,
never an uncaught exception for enrichment failures, which are absorbed
into the queues), and the status is 500 exactly when this call triggered a
dispatch and that dispatch failed. -/
theorem C8_status_iff_dispatch_failure {R : Type} [DecidableEq R]
    (A : Nat → Option R) (dOut : DispatchOutcome) (E : R → Nat → Option R)
    (record : R) (st : PipelineState R) :
    ((process_record A dOut E record st).statusCode = 200 ∨
      (process_record A dOut E record st).statusCode = 500) ∧
    ((process_record A dOut E record st).statusCode = 500 ↔
      ((process_record A dOut E record st).dispatched.isSome = true ∧
        dOut ≠ DispatchOutcome.ok)) := by
  unfold process_record
  by_cases h : 20 ≤ (afterEnrichPhase A record st).enriched_records.length
  · by_cases hd : dispatchStatus dOut = 200
    · have hok : dOut = DispatchOutcome.ok := by
        cases dOut <;> simp_all [dispatchStatus]
      simp [h, hd, hok, dispatchStatus]
    · have hne : dOut ≠ DispatchOutcome.ok := by
        rintro rfl; exact hd rfl
      simp [h, hd, hne]
  · simp [h]

set_option maxRecDepth 20000 in
/-- Claim C10, counterexample: from the empty initial state, the completed
call sequence `reachTrace20` ends with the Accumulation Queue holding 20
records — the requeue pass after the final successful dispatch refills the
queue past the threshold with no further check — so the queue does not
hold strictly fewer than 20 records after every completed call. -/
theorem C10_queue_holds_twenty_after_call :
    ¬ ((runSubs reachTrace20
        ⟨[], [], []⟩).enriched_records.length < 20) := by
  decide

/-- Claim C10, amended: after a completed `process_record` call the
Accumulation Queue holds strictly fewer than 20 records unless the call
performed a successful dispatch, in which case the queue holds exactly the
records re-enriched by that call's requeue pass (which may be 20 or more). -/
theorem C10_amended_queue_bound {R : Type} [DecidableEq R]
    (A : Nat → Option R) (dOut : DispatchOutcome) (E : R → Nat → Option R)
    (record : R) (st : PipelineState R) :
    (process_record A dOut E record st).newState.enriched_records.length
        < 20 ∨
    (process_record A dOut E record st).newState.enriched_records =
      ((afterEnrichPhase A record st).failed_records.filter
        (succeedsE E)).map (enrVal E) := by
  unfold process_record
  by_cases h : 20 ≤ (afterEnrichPhase A record st).enriched_records.length
  · by_cases hd : dispatchStatus dOut = 200
    · right
      simp only [h, if_true, hd]
      have := retry_failed_enriched E
        (⟨[], (afterEnrichPhase A record st).non_enriched_records,
          (afterEnrichPhase A record st).failed_records⟩ : PipelineState R)
      simpa using this
    · left; simp [h, hd]
  · left
    simp only [h, if_false]
    omega

end App

namespace Cli

/-- A CSV cell value as manipulated by `read_csv_file`
(cli_ingestion.py lines 58-108): the `csv.DictReader` yields strings, and
the identifier field is replaced by the integer `int(...)` produces. -/
inductive Value where
  | str (s : String)
  | int (n : Int)
deriving DecidableEq

/-- A row of the CSV file: the ordered field-name/value mapping produced by
`csv.DictReader` (keys are pairwise distinct). -/
abbrev Row := List (String × Value)

/-- `row[k]` lookup. -/
def rowLookup (row : Row) (k : String) : Option Value :=
  match row.find? (fun p => p.1 = k) with
  | some p => some p.2
  | none => none

/-- `del row[k]` / `row.pop(k)`: remove the key. -/
def rowDelete (row : Row) (k : String) : Row :=
  row.filter (fun p => ¬ p.1 = k)

/-- `row[k] = v` after the key was popped: with the key absent, Python dict
assignment appends the binding (insertion order is irrelevant to the
claims, so re-adding at the end models assignment in general). -/
def rowSet (row : Row) (k : String) (v : Value) : Row :=
  rowDelete row k ++ [(k, v)]

/-- Value of decimal digits, most significant first. -/
def digitsVal (cs : List Char) : Nat :=
  cs.foldl (fun acc c => acc * 10 + (c.toNat - 48)) 0

/-- A model of Python's `int(s)` on a string: strip surrounding whitespace,
allow one optional sign, then require a nonempty run of ASCII decimal
digits; anything else raises `ValueError`, modelled as `none`. -/
def pyInt (s : String) : Option Int :=
  let t :=
    ((s.data.dropWhile Char.isWhitespace).reverse.dropWhile
      Char.isWhitespace).reverse
  let signed : Int × List Char :=
    match t with
    | '-' :: rest => (-1, rest)
    | '+' :: rest => (1, rest)
    | _ => (1, t)
  if (!signed.2.isEmpty) && signed.2.all Char.isDigit then
    some (signed.1 * (digitsVal signed.2 : Int))
  else
    none

/-- The ten-value category whitelist `valid_category`
(cli_ingestion.py lines 71-82). -/
def valid_category : List String :=
  ["contentinjection", "drivebycompromise", "exploitpublicfacingapplication",
   "externalremoteservices", "hardwareadditions", "phishing",
   "replicationthroughremovablemedia", "supplychaincompromise",
   "trustedrelationship", "validaccounts"]

/-- The normalisation applied to the category field (line 96):
`re.sub("[^A-Za-z]", "", category).lower()` — keep ASCII letters only,
then lowercase. -/
def normalizeCategory (s : String) : String :=
  String.mk ((s.data.filter Char.isAlpha).map Char.toLower)

/-- `check_filter_values` (cli_ingestion.py lines 41-55): true when some
filter string occurs among the row's values (a string never equals the
coerced integer identifier, as in Python). -/
def check_filter_values (row : Row) (filter_values : List String) : Bool :=
  filter_values.any (fun fv => (row.map (fun p => p.2)).contains (Value.str fv))

/-- The exceptions `read_csv_file` can raise per row: `ValueError` from
`int(...)` on a malformed identifier, `KeyError` from `row["category"]`
when the field is absent. -/
inductive RowError where
  | valueError
  | keyError
deriving DecidableEq

/-- What `read_csv_file` does with one row: yield it, skip it because of an
invalid category (logged "Skipping invalid category"), skip it because no
filter value matched (logged "Record filtered out"), or raise. -/
inductive RowOutcome where
  | yielded (r : Row)
  | dropped
  | filteredOut
  | raised (e : RowError)
deriving DecidableEq

/-- Lines 86-91: delete `created_utc` and `source`, rename `asset_name` to
`asset`. -/
def dropAndRename (row : Row) : Row :=
  let r1 := rowDelete (rowDelete row "created_utc") "source"
  match rowLookup r1 "asset_name" with
  | some v => rowSet (rowDelete r1 "asset_name") "asset" v
  | none => r1

/-- Lines 92-93: `row["id"] = int(row.pop("id"))` when the field is
present; a malformed identifier makes `int` raise `ValueError`, which
nothing in `read_csv_file` catches. -/
def coerceId (row : Row) : Except RowError Row :=
  match rowLookup row "id" with
  | some (Value.str s) =>
    match pyInt s with
    | some n => Except.ok (rowSet row "id" (Value.int n))
    | none => Except.error RowError.valueError
  | some (Value.int n) => Except.ok (rowSet row "id" (Value.int n))
  | none => Except.ok row

/-- Lines 95-96: normalise the category field when present and a string. -/
def normCat (row : Row) : Row :=
  match rowLookup row "category" with
  | some (Value.str s) =>
    rowSet row "category" (Value.str (normalizeCategory s))
  | _ => row

/-- Line 98: `row["category"] not in valid_category` — raises `KeyError`
when the field is absent; an integer-valued category is never in the
whitelist of strings. -/
def categoryValid (row : Row) : Except RowError Bool :=
  match rowLookup row "category" with
  | some (Value.str s) => Except.ok (valid_category.contains s)
  | some (Value.int _) => Except.ok false
  | none => Except.error RowError.keyError

/-- The per-row behaviour of the `for row in reader` loop of
`read_csv_file` (cli_ingestion.py lines 85-108): field cleanup, identifier
coercion (which may raise), category normalisation and validation (invalid
categories are skipped with a logged reason), then the optional filter. -/
def processRow (row : Row) (filter_values : Option (List String)) :
    RowOutcome :=
  let r1 := dropAndRename row
  match coerceId r1 with
  | Except.error e => RowOutcome.raised e
  | Except.ok r2 =>
    let r3 := normCat r2
    match categoryValid r3 with
    | Except.error e => RowOutcome.raised e
    | Except.ok false => RowOutcome.dropped
    | Except.ok true =>
      match filter_values with
      | none => RowOutcome.yielded r3
      | some l =>
        if check_filter_values r3 l then RowOutcome.yielded r3
        else RowOutcome.filteredOut

/-- Claim C9, counterexample: a row whose identifier `"abc"` cannot be
coerced to an integer makes the Record Source raise `ValueError` (the
`int(...)` call on line 93 is not guarded), instead of dropping the row
with a logged reason as the claim states — even though its category is
valid. -/
theorem C9_malformed_id_raises :
    processRow [("id", Value.str "abc"), ("category", Value.str "phishing")]
        none = RowOutcome.raised RowError.valueError ∧
    ¬ processRow [("id", Value.str "abc"),
        ("category", Value.str "phishing")] none = RowOutcome.dropped := by
  decide

/-- Claim C9, amended: a row whose normalised category is outside the
whitelist (and whose identifier coerces) is dropped with a logged reason
and never yielded to the pipeline; but a malformed identifier is not a
logged drop — `read_csv_file` raises `ValueError` on such a row (before
the category is even checked). -/
theorem C9_amended_validation (row : Row)
    (filter_values : Option (List String)) :
    (∀ s, rowLookup (dropAndRename row) "id" = some (Value.str s) →
      pyInt s = none →
      processRow row filter_values = RowOutcome.raised RowError.valueError) ∧
    (∀ r2, coerceId (dropAndRename row) = Except.ok r2 →
      categoryValid (normCat r2) = Except.ok false →
      processRow row filter_values = RowOutcome.dropped) := by
  constructor
  · intro s h1 h2
    simp only [processRow, coerceId, h1, h2]
  · intro r2 h1 h2
    simp only [processRow, h1, h2]

/-- Witness for the amended C9: the malformed identifier `"12x"` raises,
and the unknown category `"unknown"` (with a well-formed identifier) is
dropped. -/
theorem C9_amended_witness :
    processRow [("id", Value.str "12x"), ("category", Value.str "phishing")]
        none = RowOutcome.raised RowError.valueError ∧
    processRow [("id", Value.str "5"), ("category", Value.str "unknown")]
        none = RowOutcome.dropped := by
  constructor
  · exact (C9_amended_validation
      [("id", Value.str "12x"), ("category", Value.str "phishing")] none).1
      "12x" (by decide) (by decide)
  · exact (C9_amended_validation
      [("id", Value.str "5"), ("category", Value.str "unknown")] none).2
      [("category", Value.str "unknown"), ("id", Value.int 5)]
      (by rfl) (by rfl)

end Cli
